import Mathlib

/-!
Verification development for the `ai-orchestration` pipeline.

Shallow embedding of the orchestration core:
- `orchestration_context.py`: the pipeline context, the Ralph Wiggum
  acceptance loop (`is_ralph_wiggum_accepted`, `prepare_ralph_wiggum_retry`,
  `check_promise_completion`) and its iteration metadata.
- `orchestrator_cli.py`: the command executor (`CommandExecutor.run`), the
  text-to-structure extractors (`_extract_json_list`, `_extract_code_content`),
  the code-review output parsing (`run_codex_code_review`), the fix selection
  and severity sort, and the stage executor (`run_claude_executor`).

Python floats appearing only as confidence scores/thresholds in `[0,1]` are
modelled as rationals; machine-level wall-clock metadata (timestamps,
durations) is outside the model.
-/

/-! ### Character and string helpers (Python semantics) -/

/-- The characters `str.strip()` removes (ASCII whitespace as in Python). -/
def pyIsSpace (c : Char) : Bool :=
  c = ' ' || c = '\t' || c = '\n' || c = '\r' || c = Char.ofNat 11 || c = Char.ofNat 12

/-- Python `str.strip()` on a character list. -/
def pyStrip (cs : List Char) : List Char :=
  ((cs.dropWhile pyIsSpace).reverse.dropWhile pyIsSpace).reverse

/-- Python `str.lstrip()` on a character list. -/
def pyLStrip (cs : List Char) : List Char :=
  cs.dropWhile pyIsSpace

/-- Python `str.strip()` at `String` type. -/
def pyStripStr (s : String) : String :=
  String.mk (pyStrip s.data)

/-- Index of the first occurrence of `pat` in `cs` at or after position `i`
(`str.find`), as an option instead of Python's `-1`. -/
def findSubFrom (pat : List Char) : List Char → Nat → Option Nat
  | cs, i =>
    match cs with
    | [] => if pat = [] ∧ i = 0 then some 0 else none
    | _ :: rest =>
      if i = 0 then
        if pat.isPrefixOf cs then some 0
        else (findSubFrom pat rest 0).map (· + 1)
      else (findSubFrom pat rest (i - 1)).map (· + 1)

/-- Index of the last occurrence of `pat` in `cs` (`str.rfind`), as an option. -/
def rfindSub (pat : List Char) : List Char → Option Nat
  | [] => if pat = [] then some 0 else none
  | cs@(_ :: rest) =>
    match rfindSub pat rest with
    | some j => some (j + 1)
    | none => if pat.isPrefixOf cs then some 0 else none

/-- Python `pat in s` substring containment. -/
def containsSub (pat cs : List Char) : Bool :=
  (findSubFrom pat cs 0).isSome

/-- Python `s.endswith(suffix)`. -/
def pyEndsWith (s suffix : String) : Bool :=
  suffix.data.isSuffixOf s.data

/-- Python `s.lower()` (ASCII case folding). -/
def pyToLower (s : String) : String :=
  String.mk (s.data.map Char.toLower)

/-- The natural number denoted by a digit string. -/
def digitsToNat (ds : List Char) : Nat :=
  ds.foldl (fun acc c => acc * 10 + (c.toNat - '0'.toNat)) 0

/-! ### Data model of `orchestration_context.py` -/

/-- The `ActionType` enum. -/
inductive ActionType where
  | create_file
  | edit_file
  | run_command
  | other
deriving DecidableEq, Repr

/-- The `ReviewItemType` enum. -/
inductive ReviewItemType where
  | bug
  | improvement
  | style
  | security
  | performance
  | documentation
deriving DecidableEq, Repr

/-- The `ReviewSeverity` enum. -/
inductive ReviewSeverity where
  | critical
  | high
  | medium
  | low
  | info
deriving DecidableEq, Repr

/-- The string value of a `ReviewSeverity` member (it is a `str` enum). -/
def ReviewSeverity.value : ReviewSeverity → String
  | .critical => "critical"
  | .high => "high"
  | .medium => "medium"
  | .low => "low"
  | .info => "info"

/-- The `Task`: one planned unit of work (paths modelled as strings; named
`PlanTask` here because `Task` is taken by the Lean core library). -/
structure PlanTask where
  step_id : Int
  file_path : String
  action_type : ActionType
  instruction : String
deriving DecidableEq, Repr

/-- The `ExecutionLog`: outcome record of one executed task. -/
structure ExecutionLog where
  step_id : Int
  success : Bool
  message : Option String := none
  output : Option String := none
deriving DecidableEq, Repr

/-- The `CodeReviewItem`: one finding of the code-review stage. -/
structure CodeReviewItem where
  item_id : Int
  file_path : String
  line_start : Option Int := none
  line_end : Option Int := none
  review_type : ReviewItemType
  severity : ReviewSeverity
  description : String
  suggestion : String
  code_snippet : Option String := none
deriving DecidableEq, Repr

/-- The `CodeReviewResult`: the whole review-stage output. -/
structure CodeReviewResult where
  reviewed_at : String
  total_files_reviewed : Int
  items : List CodeReviewItem := []
  overall_assessment : String
  requires_fixes : Bool
deriving DecidableEq, Repr

/-- The `RalphWiggumFeedback`. The pydantic model is configured with
`use_enum_values=True`, so `decision` is stored as the enum's raw string
value; the confidence score (a float in `[0,1]`) is modelled as a rational. -/
structure RalphWiggumFeedback where
  reviewer_id : String := "ralph_wiggum"
  decision : String := "pending"
  comments : List String := []
  suggestions : List String := []
  confidence_score : ℚ := 0
  reviewed_at : Option String := none
deriving DecidableEq, Repr

/-- One entry of `IterationMetadata.iteration_history`; the only writer
(`submit_ralph_wiggum_feedback`) records exactly these three keys. -/
structure HistoryEntry where
  action : String
  decision : String
  attempt : Nat
deriving DecidableEq, Repr

/-- The `IterationMetadata` of the Ralph Wiggum loop. -/
structure IterationMetadata where
  review_attempt : Nat := 1
  max_attempts : Nat := 3
  review_notes : List String := []
  iteration_history : List HistoryEntry := []
  file_snapshots : List (List (String × String)) := []
  previous_outputs : List String := []
deriving DecidableEq, Repr

/-- The `IterationMetadata.increment_attempt`: mutation modelled as returning the
updated metadata along with the reported `bool`. -/
def IterationMetadata.increment_attempt (m : IterationMetadata) :
    Bool × IterationMetadata :=
  if m.review_attempt ≥ m.max_attempts then (false, m)
  else (true, { m with review_attempt := m.review_attempt + 1 })

/-- The `OrchestrationContext`: the per-run state container (fields that are pure
data; the workspace path is a string, stage outputs use the records above). -/
structure OrchestrationContext where
  project_name : String
  user_goal : String
  workspace_path : String
  brainstorming_ideas : List String := []
  refined_brainstorming : Option String := none
  brainstorming_review_notes : Option String := none
  selected_approach : Option String := none
  implementation_plan : List PlanTask := []
  execution_logs : List ExecutionLog := []
  generated_diffs : List (String × String) := []
  code_review_result : Option CodeReviewResult := none
  fix_execution_logs : List ExecutionLog := []
  fix_iteration_count : Nat := 0
  ralph_wiggum_enabled : Bool := false
  ralph_wiggum_feedback : Option RalphWiggumFeedback := none
  ralph_wiggum_iteration : IterationMetadata := {}
  ralph_wiggum_threshold : ℚ := mkRat 8 10
  ralph_wiggum_original_prompt : Option String := none
  ralph_wiggum_completion_promise : Option String := none
  ralph_wiggum_state_file : Option String := none
deriving DecidableEq, Repr

/-- The `OrchestrationContext.is_ralph_wiggum_accepted`. With `use_enum_values`
the stored decision is a raw string (no `.value` attribute), so the source
takes its `decision == "accepted"` branch. -/
def OrchestrationContext.is_ralph_wiggum_accepted
    (c : OrchestrationContext) : Bool :=
  match c.ralph_wiggum_feedback with
  | none => false
  | some feedback =>
    (feedback.decision = "accepted") ||
      (feedback.confidence_score ≥ c.ralph_wiggum_threshold)

/-- The `OrchestrationContext.can_ralph_wiggum_retry`. -/
def OrchestrationContext.can_ralph_wiggum_retry
    (c : OrchestrationContext) : Bool :=
  c.ralph_wiggum_iteration.review_attempt < c.ralph_wiggum_iteration.max_attempts

/-- The `OrchestrationContext.prepare_ralph_wiggum_retry`: mutation modelled as
returning the updated context along with the reported `bool`. -/
def OrchestrationContext.prepare_ralph_wiggum_retry
    (c : OrchestrationContext) : Bool × OrchestrationContext :=
  if ¬ c.can_ralph_wiggum_retry then (false, c)
  else
    (true,
      { c with
        ralph_wiggum_iteration := (c.ralph_wiggum_iteration.increment_attempt).2
        ralph_wiggum_feedback := none })

/-- Group 1 of the first match of `<promise>(.*?)</promise>` (with `DOTALL`)
in `output`. The leftmost match starts at the first occurrence of the opening
tag, and the non-greedy interior ends at the first closing tag after it. -/
def promiseGroup (output : List Char) : Option (List Char) :=
  match findSubFrom ("<promise>".data) output 0 with
  | none => none
  | some i =>
    match findSubFrom ("</promise>".data) output (i + 9) with
    | none => none
    | some j => some ((output.take j).drop (i + 9))

/-- The `OrchestrationContext.check_promise_completion`: Python's falsiness test
on the configured promise treats both `None` and the empty string as unset. -/
def OrchestrationContext.check_promise_completion
    (c : OrchestrationContext) (output : String) : Bool :=
  match c.ralph_wiggum_completion_promise with
  | none => false
  | some promise =>
    if promise = "" then false
    else
      match promiseGroup output.data with
      | some inner => String.mk (pyStrip inner) = promise
      | none => false

/-! ### `CommandExecutor` (`orchestrator_cli.py`) -/

/-- Outcome of one `subprocess.run` call: either the process completed with
an exit code and captured output, or the call raised an exception. -/
inductive ExecOutcome where
  | completed (exitCode : Int) (stdout : String) (stderr : String)
  | raised (message : String)
deriving DecidableEq, Repr

/-- The `CommandExecutionLog`: one attempt record (wall-clock `timestamp` and
`duration_ms` are real-time metadata outside the model). -/
structure CommandExecutionLog where
  command : String
  cwd : Option String
  exit_code : Int
  stdout : String
  stderr : String
  attempt : Nat
deriving DecidableEq, Repr

/-- The `CommandExecutionSummary` (again without the wall-clock fields).
In the source `attempts` holds dictionaries copied field-for-field from the
corresponding `CommandExecutionLog` entries, so the model reuses that type. -/
structure CommandExecutionSummary where
  command : String
  cwd : Option String
  total_attempts : Nat
  final_status : String
  final_exit_code : Option Int
  attempts : List CommandExecutionLog
deriving DecidableEq, Repr

/-- The `CommandExecutor` configuration (the log directory only affects where the
summary file is written, not its content). -/
structure CommandExecutor where
  auto_approve : Bool := false
  retries : Nat := 1
deriving DecidableEq, Repr

/-- Mutable locals of `CommandExecutor.run`'s attempt loop. -/
structure RunLoopState where
  logs : List CommandExecutionLog
  final_status : String
  final_exit_code : Option Int
  final_output : String
  last_stderr : String
deriving DecidableEq, Repr

/-- The `for attempt in range(max_attempts)` loop of `CommandExecutor.run`.
`remaining` counts the iterations left; `exec` is the subprocess collaborator,
indexed by attempt number. A zero exit code breaks out of the loop. -/
def runAttemptLoop (command : String) (cwd : Option String)
    (exec : Nat → ExecOutcome) :
    Nat → Nat → RunLoopState → RunLoopState
  | 0, _, st => st
  | remaining + 1, attempt, st =>
    match exec attempt with
    | .completed rc out err =>
      let entry : CommandExecutionLog :=
        { command := command, cwd := cwd, exit_code := rc, stdout := out,
          stderr := err, attempt := attempt + 1 }
      let st := { st with logs := st.logs ++ [entry], last_stderr := err }
      if rc = 0 then
        { st with
            final_status := "success"
            final_exit_code := some rc
            final_output := pyStripStr out }
      else
        let st := { st with
            final_exit_code := some rc
            final_output := s!"Command failed with exit code {rc}: {err}" }
        runAttemptLoop command cwd exec remaining (attempt + 1) st
    | .raised msg =>
      let entry : CommandExecutionLog :=
        { command := command, cwd := cwd, exit_code := -1, stdout := "",
          stderr := msg, attempt := attempt + 1 }
      let st := { st with
          logs := st.logs ++ [entry]
          last_stderr := msg
          final_exit_code := some (-1)
          final_output := s!"Command execution error: {msg}" }
      runAttemptLoop command cwd exec remaining (attempt + 1) st

/-- Result of `CommandExecutor.run`: the returned triple plus the summary the
method persists to the log file before returning. -/
structure CommandRunResult where
  success : Bool
  output : String
  logs : List CommandExecutionLog
  summary : CommandExecutionSummary
deriving DecidableEq, Repr

/-- The `CommandExecutor.run`. The confirmation collaborator's answer is the
`confirm` argument (consulted only when `auto_approve` is off); `exec` is the
subprocess collaborator. -/
def CommandExecutor.run (e : CommandExecutor) (command : String)
    (cwd : Option String) (confirm : Bool) (exec : Nat → ExecOutcome) :
    CommandRunResult :=
  if ¬ e.auto_approve ∧ ¬ confirm then
    { success := false
      output := "Command execution skipped by user."
      logs := []
      summary := { command := command, cwd := cwd, total_attempts := 0,
                   final_status := "skipped", final_exit_code := none,
                   attempts := [] } }
  else
    let maxAttempts := 1 + e.retries
    let st0 : RunLoopState :=
      { logs := [], final_status := "failed", final_exit_code := none,
        final_output := "", last_stderr := "" }
    let st := runAttemptLoop command cwd exec maxAttempts 0 st0
    { success := st.final_status = "success"
      output := st.final_output
      logs := st.logs
      summary := { command := command, cwd := cwd,
                   total_attempts := st.logs.length,
                   final_status := st.final_status,
                   final_exit_code := st.final_exit_code,
                   attempts := st.logs } }

/-- An attempt outcome that the retry loop counts as a failure: a nonzero
exit code, or an execution exception. -/
def ExecOutcome.isFailure : ExecOutcome → Bool
  | .completed rc _ _ => rc ≠ 0
  | .raised _ => true

/-! ### JSON values and a model of Python's `json` decoder

`_extract_json_list` relies on `json.loads` and `json.JSONDecoder.raw_decode`.
The decoder below models CPython's pure-python scanner: values are `null`,
`true`/`false`, numbers (kept as their lexeme, so no float rounding enters the
model; the `NaN`/`Infinity`/`-Infinity` extensions are numbers too), strings
with the standard escapes, arrays and objects with `[ \t\n\r]` whitespace
around tokens. Objects are modelled as member lists in document order (a
Python `dict` would additionally collapse duplicate keys; no claim below
depends on that). A `\uXXXX` escape denoting a lone surrogate, which Python
keeps as an unpaired surrogate code unit, is mapped through `Char.ofNat`. -/

/-- An opening brace character (spelled via its code point). -/
def braceOpen : Char := Char.ofNat 123

/-- A closing brace character (spelled via its code point). -/
def braceClose : Char := Char.ofNat 125

/-- A decoded JSON value. -/
inductive Json where
  | null
  | bool (b : Bool)
  | num (lexeme : String)
  | str (s : String)
  | arr (elements : List Json)
  | obj (members : List (String × Json))
deriving Repr

/-- The JSON inter-token whitespace class (`json.decoder.WHITESPACE`). -/
def isJsonWs (c : Char) : Bool :=
  c = ' ' || c = '\t' || c = '\n' || c = '\r'

/-- Skip inter-token whitespace. -/
def skipJsonWs (cs : List Char) : List Char :=
  cs.dropWhile isJsonWs

/-- Value of a hexadecimal digit. -/
def hexDigitVal (c : Char) : Option Nat :=
  if '0' ≤ c ∧ c ≤ '9' then some (c.toNat - '0'.toNat)
  else if 'a' ≤ c ∧ c ≤ 'f' then some (c.toNat - 'a'.toNat + 10)
  else if 'A' ≤ c ∧ c ≤ 'F' then some (c.toNat - 'A'.toNat + 10)
  else none

/-- Four hex digits of a `\uXXXX` escape. -/
def parseHex4 : List Char → Option (Nat × List Char)
  | a :: b :: c :: d :: rest =>
    match hexDigitVal a, hexDigitVal b, hexDigitVal c, hexDigitVal d with
    | some va, some vb, some vc, some vd =>
      some (((va * 16 + vb) * 16 + vc) * 16 + vd, rest)
    | _, _, _, _ => none
  | _ => none

/-- The single-character escapes of `json.decoder.BACKSLASH`. -/
def jsonEscapeChar (c : Char) : Option Char :=
  if c = '"' then some '"'
  else if c = '\\' then some '\\'
  else if c = '/' then some '/'
  else if c = 'b' then some (Char.ofNat 8)
  else if c = 'f' then some (Char.ofNat 12)
  else if c = 'n' then some '\n'
  else if c = 'r' then some '\r'
  else if c = 't' then some '\t'
  else none

/-- The `py_scanstring` (strict mode) after the opening quote: content up to the
closing quote, rejecting raw control characters and unknown escapes, decoding
`\uXXXX` (with surrogate-pair combination as in CPython). -/
def scanStringBody : Nat → List Char → Option (List Char × List Char)
  | 0, _ => none
  | _ + 1, [] => none
  | fuel + 1, c :: r =>
    if c = '"' then some ([], r)
    else if c = '\\' then
      match r with
      | [] => none
      | e :: r2 =>
        if e = 'u' then
          match parseHex4 r2 with
          | none => none
          | some (n, r3) =>
            if 0xD800 ≤ n ∧ n ≤ 0xDBFF then
              match r3 with
              | b1 :: b2 :: r4 =>
                if b1 = '\\' ∧ b2 = 'u' then
                  match parseHex4 r4 with
                  | some (n2, r5) =>
                    if 0xDC00 ≤ n2 ∧ n2 ≤ 0xDFFF then
                      (scanStringBody fuel r5).map
                        (fun p =>
                          (Char.ofNat
                              (0x10000 + (n - 0xD800) * 0x400 + (n2 - 0xDC00))
                            :: p.1, p.2))
                    else
                      (scanStringBody fuel r3).map
                        (fun p => (Char.ofNat n :: p.1, p.2))
                  | none =>
                    (scanStringBody fuel r3).map
                      (fun p => (Char.ofNat n :: p.1, p.2))
                else
                  (scanStringBody fuel r3).map
                    (fun p => (Char.ofNat n :: p.1, p.2))
              | _ =>
                (scanStringBody fuel r3).map
                  (fun p => (Char.ofNat n :: p.1, p.2))
            else
              (scanStringBody fuel r3).map
                (fun p => (Char.ofNat n :: p.1, p.2))
        else
          match jsonEscapeChar e with
          | some ch => (scanStringBody fuel r2).map (fun p => (ch :: p.1, p.2))
          | none => none
    else if c.toNat < 0x20 then none
    else (scanStringBody fuel r).map (fun p => (c :: p.1, p.2))

/-- Fraction part `(\.\d+)?` of the number regex: extends the lexeme only
when the dot is followed by at least one digit. -/
def numberFracPart (lex rest : List Char) : List Char × List Char :=
  match rest with
  | c :: r =>
    if c = '.' then
      let ds := r.takeWhile Char.isDigit
      if ds = [] then (lex, rest) else (lex ++ [c] ++ ds, r.drop ds.length)
    else (lex, rest)
  | [] => (lex, rest)

/-- Exponent part `([eE][-+]?\d+)?` of the number regex. -/
def numberExpPart (lex rest : List Char) : List Char × List Char :=
  match rest with
  | c :: r =>
    if c = 'e' ∨ c = 'E' then
      match r with
      | s :: r2 =>
        if s = '+' ∨ s = '-' then
          let ds := r2.takeWhile Char.isDigit
          if ds = [] then (lex, rest)
          else (lex ++ [c, s] ++ ds, r2.drop ds.length)
        else
          let ds := r.takeWhile Char.isDigit
          if ds = [] then (lex, rest)
          else (lex ++ [c] ++ ds, r.drop ds.length)
      | [] => (lex, rest)
    else (lex, rest)
  | [] => (lex, rest)

/-- The number lexeme matched by `json.scanner.NUMBER_RE`
(`-?(0|[1-9]\d*)(\.\d+)?([eE][-+]?\d+)?`), with the remaining input. -/
def parseNumberLex (cs : List Char) : Option (List Char × List Char) :=
  let (signLex, cs1) : List Char × List Char :=
    match cs with
    | c :: r => if c = '-' then (['-'], r) else ([], cs)
    | [] => ([], [])
  match cs1 with
  | [] => none
  | c :: r =>
    let intRes : Option (List Char × List Char) :=
      if c = '0' then some (signLex ++ ['0'], r)
      else if '1' ≤ c ∧ c ≤ '9' then
        let ds := r.takeWhile Char.isDigit
        some (signLex ++ [c] ++ ds, r.drop ds.length)
      else none
    match intRes with
    | none => none
    | some (lex1, rest1) =>
      let (lex2, rest2) := numberFracPart lex1 rest1
      let (lex3, rest3) := numberExpPart lex2 rest2
      some (lex3, rest3)

mutual

/-- The `_scan_once`: decode one JSON value starting exactly at the head of the
input (no leading-whitespace skip, as in `raw_decode`). -/
def parseJsonValue : Nat → List Char → Option (Json × List Char)
  | 0, _ => none
  | _ + 1, [] => none
  | fuel + 1, cs@(c :: rest) =>
    if c = '"' then
      (scanStringBody (rest.length + 1) rest).map
        (fun p => (Json.str (String.mk p.1), p.2))
    else if c = braceOpen then parseJsonObjectBody fuel (skipJsonWs rest)
    else if c = '[' then parseJsonArrayBody fuel (skipJsonWs rest)
    else if ("null".data).isPrefixOf cs then some (Json.null, cs.drop 4)
    else if ("true".data).isPrefixOf cs then some (Json.bool true, cs.drop 4)
    else if ("false".data).isPrefixOf cs then some (Json.bool false, cs.drop 5)
    else
      match parseNumberLex cs with
      | some (lex, r) => some (Json.num (String.mk lex), r)
      | none =>
        if ("NaN".data).isPrefixOf cs then
          some (Json.num ("NaN"), cs.drop 3)
        else if ("Infinity".data).isPrefixOf cs then
          some (Json.num ("Infinity"), cs.drop 8)
        else if ("-Infinity".data).isPrefixOf cs then
          some (Json.num ("-Infinity"), cs.drop 9)
        else none

/-- The `JSONArray` after the opening bracket and leading whitespace skip. -/
def parseJsonArrayBody : Nat → List Char → Option (Json × List Char)
  | 0, _ => none
  | _ + 1, [] => none
  | fuel + 1, cs@(c :: rest) =>
    if c = ']' then some (Json.arr [], rest)
    else parseJsonItems fuel cs []

/-- The element loop of `JSONArray`: value, then `,` (and more elements) or
`]`, with whitespace skipped around delimiters. -/
def parseJsonItems : Nat → List Char → List Json → Option (Json × List Char)
  | 0, _, _ => none
  | fuel + 1, cs, acc =>
    match parseJsonValue fuel cs with
    | none => none
    | some (v, r) =>
      match skipJsonWs r with
      | [] => none
      | c :: r2 =>
        if c = ',' then parseJsonItems fuel (skipJsonWs r2) (acc ++ [v])
        else if c = ']' then some (Json.arr (acc ++ [v]), r2)
        else none

/-- The `JSONObject` after the opening brace and leading whitespace skip: either
an immediate closing brace, or the member loop. -/
def parseJsonObjectBody : Nat → List Char → Option (Json × List Char)
  | 0, _ => none
  | _ + 1, [] => none
  | fuel + 1, cs@(c :: rest) =>
    if c = braceClose then some (Json.obj [], rest)
    else parseJsonMembers fuel cs []

/-- The member loop of `JSONObject`: `"key"`, whitespace, `:`, whitespace,
value, whitespace, then `,` (and a next key that must again open with `"`)
or the closing brace. -/
def parseJsonMembers :
    Nat → List Char → List (String × Json) → Option (Json × List Char)
  | 0, _, _ => none
  | _ + 1, [], _ => none
  | fuel + 1, c :: rest, acc =>
    if c = '"' then
      match scanStringBody (rest.length + 1) rest with
      | none => none
      | some (key, r2) =>
        match skipJsonWs r2 with
        | [] => none
        | c2 :: r3 =>
          if c2 = ':' then
            match parseJsonValue fuel (skipJsonWs r3) with
            | none => none
            | some (v, r4) =>
              match skipJsonWs r4 with
              | [] => none
              | c3 :: r5 =>
                if c3 = ',' then
                  parseJsonMembers fuel (skipJsonWs r5)
                    (acc ++ [(String.mk key, v)])
                else if c3 = braceClose then
                  some (Json.obj (acc ++ [(String.mk key, v)]), r5)
                else none
          else none
    else none

end

/-- Fuel that is ample for any real decode of `cs` (every recursive step of
the scanner consumes at least one input character). -/
def jsonFuel (cs : List Char) : Nat := 4 * cs.length + 8

/-- The `json.JSONDecoder.raw_decode` on the given text (which the caller has
sliced so that the value is expected at position 0): the decoded value and
the remaining input after it. -/
def rawDecode (cs : List Char) : Option (Json × List Char) :=
  parseJsonValue (jsonFuel cs) cs

/-- The `json.loads`: leading and trailing whitespace allowed, and the decode
must consume the whole input. -/
def pyJsonLoads (cs : List Char) : Option Json :=
  match rawDecode (skipJsonWs cs) with
  | some (v, rest) => if skipJsonWs rest = [] then some v else none
  | none => none

/-- The `isinstance(item, dict)`. -/
def Json.isObj : Json → Bool
  | .obj _ => true
  | _ => false

/-- The `text.find("[", idx)` as an option. -/
def findBracketFrom (cs : List Char) (idx : Nat) : Option Nat :=
  ((cs.drop idx).findIdx? (fun c => c = '[')).map (· + idx)

/-- The scan loop of `_extract_json_list`: from each `[` at or after `idx`,
attempt a raw decode; on failure move one character right; on success jump
past the decoded span, keeping the value when it is an array whose elements
are all objects. `fuel` bounds the iterations (the index strictly increases
each time, so `length + 2` iterations always suffice). -/
def collectCandidatesAux (cs : List Char) : Nat → Nat → List (List Json)
  | 0, _ => []
  | fuel + 1, idx =>
    match findBracketFrom cs idx with
    | none => []
    | some j =>
      match rawDecode (cs.drop j) with
      | none => collectCandidatesAux cs fuel (j + 1)
      | some (Json.arr xs, rest) =>
        if xs.all Json.isObj then
          xs :: collectCandidatesAux cs fuel
            (j + ((cs.drop j).length - rest.length))
        else
          collectCandidatesAux cs fuel
            (j + ((cs.drop j).length - rest.length))
      | some (_, rest) =>
        collectCandidatesAux cs fuel
          (j + ((cs.drop j).length - rest.length))

/-- Iteration budget for the candidate scan. -/
def scanFuel (cs : List Char) : Nat := 2 * cs.length + 4

/-- The `_extract_json_list`. The first `json.loads` attempt returns whatever
value the whole text decodes to (the bare `except` swallows its failure);
otherwise the scan's last candidate, or an empty list. -/
def extractJsonList (text : String) : Json :=
  match pyJsonLoads text.data with
  | some v => v
  | none =>
    match (collectCandidatesAux text.data (scanFuel text.data) 0).getLast? with
    | some xs => Json.arr xs
    | none => Json.arr []

/-- Position `i` of the text hosts a decodable JSON array whose elements are
all objects (the claims' notion of a valid plan candidate). -/
def qualifiesAt (cs : List Char) (i : Nat) : Bool :=
  match rawDecode (cs.drop i) with
  | some (.arr xs, _) => xs.all Json.isObj
  | _ => false

/-- All positions of the text hosting a valid candidate, in document order
(a decode must start inside the text, so indices beyond it never qualify). -/
def qualifyingPositions (cs : List Char) : List Nat :=
  (List.range cs.length).filter (fun i => qualifiesAt cs i)

/-- The `collectCandidatesAux` instrumented with the start position of each
collected candidate (used to state where the scan found them). -/
def collectCandidatesPos (cs : List Char) : Nat → Nat → List (Nat × List Json)
  | 0, _ => []
  | fuel + 1, idx =>
    match findBracketFrom cs idx with
    | none => []
    | some j =>
      match rawDecode (cs.drop j) with
      | none => collectCandidatesPos cs fuel (j + 1)
      | some (Json.arr xs, rest) =>
        if xs.all Json.isObj then
          (j, xs) :: collectCandidatesPos cs fuel
            (j + ((cs.drop j).length - rest.length))
        else
          collectCandidatesPos cs fuel
            (j + ((cs.drop j).length - rest.length))
      | some (_, rest) =>
        collectCandidatesPos cs fuel
          (j + ((cs.drop j).length - rest.length))

/-! ### `_extract_code_content` -/

/-- A character of the optional language tag `[\w\+\-\.]` on an opening
fence (`\w` restricted to ASCII). -/
def isFenceLangChar (c : Char) : Bool :=
  c.isAlphanum || c = '_' || c = '+' || c = '-' || c = '.'

/-- Match of the opening-fence regex ```` ```(?:[\w\+\-\.]+)?\s*\n ```` at
the head of the input, returning the length of the match. The greedy `\s*`
backtracks so that the match ends right after the last newline of the
whitespace run following the fence marker and language tag. -/
def fenceMatchAt (cs : List Char) : Option Nat :=
  if ("```".data).isPrefixOf cs then
    let rest := cs.drop 3
    let langLen := (rest.takeWhile isFenceLangChar).length
    let afterLang := rest.drop langLen
    let ws := afterLang.takeWhile pyIsSpace
    match ws.reverse.findIdx? (fun c => c = '\n') with
    | some k => some (3 + langLen + (ws.length - 1 - k) + 1)
    | none => none
  else none

/-- The `re.search` for the opening-fence regex: end position (`match.end()`) of
the leftmost match. -/
def fenceSearchAux : List Char → Nat → Option Nat
  | [], _ => none
  | cs@(_ :: rest), i =>
    match fenceMatchAt cs with
    | some len => some (i + len)
    | none => fenceSearchAux rest (i + 1)

/-- The `_extract_code_content`: interior of the first fenced block (from the
first opening fence line to the last newline-plus-triple-backtick closing
marker when that lies beyond the opening), whitespace-stripped; the stripped
whole text when no opening fence matches; everything after the opening fence
line when no closing marker follows it. -/
def extractCodeContent (text : String) : String :=
  match fenceSearchAux text.data 0 with
  | none => pyStripStr text
  | some startIndex =>
    match rfindSub ("\n```".data) text.data with
    | some endIndex =>
      if startIndex < endIndex then
        String.mk (pyStrip ((text.data.take endIndex).drop startIndex))
      else String.mk (pyStrip (text.data.drop startIndex))
    | none => String.mk (pyStrip (text.data.drop startIndex))

/-! ### Code-review output parsing (`run_codex_code_review`, JSON section) -/

/-- The span matched by `re.search(r"\{[\s\S]*\}", output)`: from the first
opening brace to the last closing brace of the whole text (the leftmost match
start is the first opening brace followed by some closing brace, and the
greedy interior then reaches the last closing brace). -/
def braceSpan (cs : List Char) : Option (List Char) :=
  match cs.findIdx? (fun c => c = braceOpen), rfindSub [braceClose] cs with
  | some i, some j => if i < j then some ((cs.take (j + 1)).drop i) else none
  | _, _ => none

/-- Lookup in a decoded JSON object the way a Python `dict` built from the
member list would: the last binding of a duplicated key wins. -/
def jsonLookupLast (kvs : List (String × Json)) (k : String) : Option Json :=
  (kvs.filterMap (fun p => if p.1 = k then some p.2 else none)).getLast?

/-- An integer from a JSON number lexeme consisting of digits with an
optional leading minus sign (the conservative subset of pydantic's lax `int`
coercion that the claims exercise; fractional or exponent lexemes are
rejected, standing in for a validation failure). -/
def intOfNumLexeme (lex : String) : Option Int :=
  match lex.data with
  | [] => none
  | c :: rest =>
    if c = '-' then
      if rest ≠ [] ∧ rest.all Char.isDigit then
        some (-(Int.ofNat (digitsToNat rest)))
      else none
    else if (c :: rest).all Char.isDigit then
      some (Int.ofNat (digitsToNat lex.data))
    else none

/-- The `ReviewItemType(value)`: the enum member for a raw string, if any. -/
def reviewItemTypeOfString (s : String) : Option ReviewItemType :=
  if s = "bug" then some .bug
  else if s = "improvement" then some .improvement
  else if s = "style" then some .style
  else if s = "security" then some .security
  else if s = "performance" then some .performance
  else if s = "documentation" then some .documentation
  else none

/-- The `ReviewSeverity(value)`: the enum member for a raw string, if any. -/
def reviewSeverityOfString (s : String) : Option ReviewSeverity :=
  if s = "critical" then some .critical
  else if s = "high" then some .high
  else if s = "medium" then some .medium
  else if s = "low" then some .low
  else if s = "info" then some .info
  else none

/-- An optional-int field (`line_start`/`line_end`): absent or `null` gives
`none`; an integral number gives its value; anything else fails the item. -/
def optIntField (kvs : List (String × Json)) (k : String) :
    Option (Option Int) :=
  match jsonLookupLast kvs k with
  | none => some none
  | some Json.null => some none
  | some (Json.num lex) => (intOfNumLexeme lex).map some
  | some _ => none

/-- An optional-string field (`code_snippet`). -/
def optStrField (kvs : List (String × Json)) (k : String) :
    Option (Option String) :=
  match jsonLookupLast kvs k with
  | none => some none
  | some Json.null => some none
  | some (Json.str s) => some (some s)
  | some _ => none

/-- Build one `CodeReviewItem` from one element of the review `items` array.
Any failure (missing key, wrong shape, unknown enum value) is the per-item
`except Exception` in the source: the item is dropped. -/
def parseReviewItem (j : Json) : Option CodeReviewItem :=
  match j with
  | Json.obj kvs =>
    match jsonLookupLast kvs ("item_id"), jsonLookupLast kvs ("file_path"),
        jsonLookupLast kvs ("review_type"), jsonLookupLast kvs ("severity"),
        jsonLookupLast kvs ("description"), jsonLookupLast kvs ("suggestion") with
    | some (Json.num idLex), some (Json.str pathStr), some (Json.str tyStr),
        some (Json.str sevStr), some (Json.str desc), some (Json.str sugg) =>
      match intOfNumLexeme idLex, reviewItemTypeOfString tyStr,
          reviewSeverityOfString sevStr, optIntField kvs ("line_start"),
          optIntField kvs ("line_end"), optStrField kvs ("code_snippet") with
      | some itemId, some ty, some sev, some ls, some le, some snippet =>
        some { item_id := itemId, file_path := pathStr, line_start := ls,
               line_end := le, review_type := ty, severity := sev,
               description := desc, suggestion := sugg,
               code_snippet := snippet }
      | _, _, _, _, _, _ => none
    | _, _, _, _, _, _ => none
  | _ => none

/-- The `items` collection loop: a JSON array is iterated element by element
(failures dropped); iterating a JSON object or string yields strings whose
item parses all fail, so they contribute nothing; iterating any other value
is a `TypeError` that escapes the stage (only `json.JSONDecodeError` is
caught there). -/
def collectReviewItems (v : Json) : Except String (List CodeReviewItem) :=
  match v with
  | Json.arr xs => .ok (xs.filterMap parseReviewItem)
  | Json.obj _ => .ok []
  | Json.str _ => .ok []
  | _ => .error ("TypeError: review items value is not iterable")

/-- The empty `CodeReviewResult` synthesized when the review JSON decode
fails (`reviewed_at` is the current time, a parameter of the model). -/
def emptyReviewResult (now : String) (fileCount : Int) : CodeReviewResult :=
  { reviewed_at := now, total_files_reviewed := fileCount, items := [],
    overall_assessment := "Review parsing failed", requires_fixes := false }

/-- A string-or-default field of the review object; a present value of any
other shape is a pydantic validation error that escapes the stage. -/
def strFieldOr (kvs : List (String × Json)) (k : String) (dflt : String) :
    Except String String :=
  match jsonLookupLast kvs k with
  | none => .ok dflt
  | some (Json.str s) => .ok s
  | some _ => .error ("ValidationError: expected a string")

/-- The JSON-parsing tail of `run_codex_code_review` (source lines 1171-1219):
from the raw review output and the prior `code_review_result`, compute the new
`code_review_result`. `now` stands for `datetime.now().isoformat()` and
`fileCount` for `len(file_list)`; an `.error` result is an exception escaping
the stage (everything after the decode is outside the `except` clause, which
catches only `json.JSONDecodeError`). -/
def runCodexCodeReviewParse (prev : Option CodeReviewResult) (output : String)
    (now : String) (fileCount : Int) :
    Except String (Option CodeReviewResult) :=
  match braceSpan output.data with
  | none => .ok prev
  | some span =>
    match pyJsonLoads span with
    | none => .ok (some (emptyReviewResult now fileCount))
    | some (Json.obj kvs) =>
      match (match jsonLookupLast kvs ("items") with
             | none => Except.ok ([] : List CodeReviewItem)
             | some v => collectReviewItems v) with
      | .error e => .error e
      | .ok items =>
        match strFieldOr kvs ("reviewed_at") now,
            strFieldOr kvs ("overall_assessment") ("") with
        | .ok reviewedAt, .ok assessment =>
          match jsonLookupLast kvs ("total_files_reviewed"),
              jsonLookupLast kvs ("requires_fixes") with
          | some (Json.num lex), some (Json.bool b) =>
            match intOfNumLexeme lex with
            | some n =>
              .ok (some { reviewed_at := reviewedAt,
                          total_files_reviewed := n, items := items,
                          overall_assessment := assessment,
                          requires_fixes := b })
            | none => .error ("ValidationError: expected an integer")
          | some (Json.num lex), none =>
            match intOfNumLexeme lex with
            | some n =>
              .ok (some { reviewed_at := reviewedAt,
                          total_files_reviewed := n, items := items,
                          overall_assessment := assessment,
                          requires_fixes := items.length > 0 })
            | none => .error ("ValidationError: expected an integer")
          | none, some (Json.bool b) =>
            .ok (some { reviewed_at := reviewedAt,
                        total_files_reviewed := fileCount, items := items,
                        overall_assessment := assessment,
                        requires_fixes := b })
          | none, none =>
            .ok (some { reviewed_at := reviewedAt,
                        total_files_reviewed := fileCount, items := items,
                        overall_assessment := assessment,
                        requires_fixes := items.length > 0 })
          | _, _ => .error ("ValidationError: wrong field type")
        | _, _ => .error ("ValidationError: expected a string")
    | some _ => .error ("AttributeError: decoded review is not an object")

/-! ### Fix selection and severity-ordered dispatch -/

/-- The `severity_order` list of `main` (critical first). -/
def severityOrder : List String := ["critical", "high", "medium", "low", "info"]

/-- The sort key `severity_order.index(x.severity.value)`. -/
def severityIndex (s : ReviewSeverity) : Nat :=
  severityOrder.indexOf s.value

/-- The comparison `sorted` effectively uses: lower severity index first. -/
def sevLe (a b : CodeReviewItem) : Prop :=
  severityIndex a.severity ≤ severityIndex b.severity

instance : DecidableRel sevLe := fun _ _ => Nat.decLe _ _

instance : IsTotal CodeReviewItem sevLe := ⟨fun _ _ => Nat.le_total _ _⟩

instance : IsTrans CodeReviewItem sevLe := ⟨fun _ _ _ => Nat.le_trans⟩

/-- The `sorted(items_to_fix, key=lambda x: severity_order.index(x.severity.value))`:
Python's `sorted` is a stable sort, modelled by stable insertion sort. -/
def sortedBySeverity (items : List CodeReviewItem) : List CodeReviewItem :=
  List.insertionSort sevLe items

/-- Python `int(s)` on an already-stripped string (optional sign, digits). -/
def pyParseInt (s : String) : Option Int :=
  match s.data with
  | [] => none
  | c :: rest =>
    if c = '-' then
      if rest ≠ [] ∧ rest.all Char.isDigit then
        some (-(Int.ofNat (digitsToNat rest)))
      else none
    else if c = '+' then
      if rest ≠ [] ∧ rest.all Char.isDigit then
        some (Int.ofNat (digitsToNat rest))
      else none
    else if (c :: rest).all Char.isDigit then some (Int.ofNat (digitsToNat s.data))
    else none

/-- Split a string at commas (`str.split(",")`). -/
def splitCommas (s : String) : List String :=
  s.splitOn (",")

/-- The comma-indexed branch of `_prompt_fix_selection`: parse each component
as `int(x.strip()) - 1`; any parse failure is the caught `ValueError` giving
an empty selection; valid indices select items, out-of-range ones are
filtered out. -/
def selectByIndices (choice : String) (items : List CodeReviewItem) :
    List CodeReviewItem :=
  let parsed := (splitCommas choice).map
    (fun x => (pyParseInt (pyStripStr x)).map (· - 1))
  if parsed.all Option.isSome then
    (parsed.filterMap id).filterMap
      (fun i =>
        if h : 0 ≤ i ∧ i.toNat < items.length then
          some (items.get ⟨i.toNat, h.2⟩)
        else none)
  else []

/-- The `_prompt_fix_selection` after the user's `choice` is read: `a` keeps all
items, `n` drops all, `c` keeps critical and high only (in emission order),
anything else is parsed as comma-separated indices. -/
def promptFixSelection (choice : String) (items : List CodeReviewItem) :
    List CodeReviewItem :=
  if items = [] then []
  else if pyToLower choice = "a" then items
  else if pyToLower choice = "n" then []
  else if pyToLower choice = "c" then
    items.filter
      (fun item =>
        decide (item.severity = ReviewSeverity.critical ∨
          item.severity = ReviewSeverity.high))
  else selectByIndices choice items

/-- The items of one severity, in emission order. -/
def severityFilter (s : ReviewSeverity) (items : List CodeReviewItem) :
    List CodeReviewItem :=
  items.filter (fun it => decide (it.severity = s))

/-! ### Stage executor (`run_claude_executor`) -/

/-- Collaborators of the stage executor: the agent (a text response per
attempt; the corrective prompt built between attempts only feeds the agent,
which the oracle abstracts), the language syntax checker (`ast.parse`
succeeding), and diff generation (`_generate_diff`). -/
structure ExecutorEnv where
  debug : Bool
  pySyntaxOk : String → Bool
  diffFn : String → String → String → String
  responses : Nat → String

/-- Update of a string-keyed map (workspace files, `generated_diffs`). -/
def assocSet (m : List (String × String)) (k v : String) :
    List (String × String) :=
  (m.filter (fun p => decide (p.1 ≠ k))) ++ [(k, v)]

/-- Lookup in a string-keyed map. -/
def assocGet (m : List (String × String)) (k : String) : Option String :=
  (m.find? (fun p => decide (p.1 = k))).map (·.2)

/-- The `code_content.lstrip().startswith("{") and '"type"' in code_content`. -/
def streamJsonLike (code : String) : Bool :=
  (match pyLStrip code.data with
   | c :: _ => c = braceOpen
   | [] => false) &&
    containsSub ("\"type\"".data) code.data

/-- A failure `ExecutionLog` with a message. -/
def failLog (sid : Int) (msg : String) : ExecutionLog :=
  { step_id := sid, success := false, message := some msg }

/-- The success message written after a file write. -/
def writeDoneMsg (fp : String) : String := s!"파일 작성 완료: {fp}"

/-- The self-healing attempt loop of `run_claude_executor` (without the
wrapping `try` around the file write: an OS-level write error, which returns
with no record at all, is outside this pure model). One iteration: extract
code from the response; abort on stream-JSON-shaped content; abort on empty
content only when `debug` is on (the source gates that whole branch on
`DEBUG`); retry on a syntax error while attempts remain; otherwise write the
file, record the diff and a success log for file actions, or retry for other
actions. Exhaustion appends the final failure log. -/
def runClaudeExecutorLoop (env : ExecutorEnv) (task : PlanTask)
    (maxRetries : Nat) (existing : String) :
    Nat → Nat → OrchestrationContext × List (String × String) →
      OrchestrationContext × List (String × String)
  | 0, _, (c, files) =>
    ({ c with execution_logs :=
        c.execution_logs ++ [failLog task.step_id ("최대 재시도 초과 또는 오류")] },
      files)
  | remaining + 1, attempt, (c, files) =>
    let raw := env.responses attempt
    let code := extractCodeContent raw
    if streamJsonLike code then
      ({ c with execution_logs := c.execution_logs ++
          [failLog task.step_id
            ("Claude output looked like stream JSON; skipped write.")] },
        files)
    else if env.debug ∧ pyStripStr code = "" then
      ({ c with execution_logs := c.execution_logs ++
          [failLog task.step_id
            ("Claude output empty after parsing; skipped write.")] },
        files)
    else if pyEndsWith task.file_path (".py") ∧ code ≠ "" ∧
        ¬ env.pySyntaxOk code ∧ attempt < maxRetries then
      runClaudeExecutorLoop env task maxRetries existing remaining
        (attempt + 1) (c, files)
    else if task.action_type = ActionType.create_file ∨
        task.action_type = ActionType.edit_file then
      let diff := env.diffFn existing code task.file_path
      let c := { c with
          generated_diffs := assocSet c.generated_diffs task.file_path diff
          execution_logs := c.execution_logs ++
            [{ step_id := task.step_id, success := true,
               message := some (writeDoneMsg task.file_path) }] }
      (c, assocSet files task.file_path code)
    else
      runClaudeExecutorLoop env task maxRetries existing remaining
        (attempt + 1) (c, files)

/-- The `run_claude_executor`: read the existing file content once, then run the
attempt loop (`max_retries + 1` iterations). Returns the updated context and
workspace contents. -/
def runClaudeExecutor (env : ExecutorEnv) (task : PlanTask)
    (maxRetries : Nat) (c : OrchestrationContext)
    (files : List (String × String)) :
    OrchestrationContext × List (String × String) :=
  let existing := (assocGet files task.file_path).getD ("")
  runClaudeExecutorLoop env task maxRetries existing (maxRetries + 1) 0
    (c, files)

/-! ### Concrete fixtures -/

/-- A minimal context (defaults: attempt 1 of 3, threshold `0.8`, no
feedback, no completion promise). -/
def baseCtx : OrchestrationContext :=
  { project_name := "TestProject", user_goal := "Build a test app",
    workspace_path := "ws" }

/-- The `baseCtx` with a given feedback. -/
def ctxWithFeedback (fb : Option RalphWiggumFeedback) : OrchestrationContext :=
  { baseCtx with ralph_wiggum_feedback := fb }

/-! ### Claim theorems: acceptance loop -/

/-- C1: the acceptance predicate returns true iff the submitted feedback's
decision equals `"accepted"` or its confidence score is at least the
configured threshold; for decision `rejected` with score `0.95` against
threshold `0.8` it is true, for `needs_revision` with score `0.5` it is
false, and with no feedback it is false. -/
theorem is_ralph_wiggum_accepted_spec :
    (∀ c : OrchestrationContext,
      c.is_ralph_wiggum_accepted = true ↔
        ∃ fb, c.ralph_wiggum_feedback = some fb ∧
          (fb.decision = "accepted" ∨
            fb.confidence_score ≥ c.ralph_wiggum_threshold)) ∧
    (ctxWithFeedback
        (some { decision := "rejected", confidence_score := mkRat 95 100 })
      ).is_ralph_wiggum_accepted = true ∧
    (ctxWithFeedback
        (some { decision := "needs_revision", confidence_score := mkRat 5 10 })
      ).is_ralph_wiggum_accepted = false ∧
    (ctxWithFeedback none).is_ralph_wiggum_accepted = false := by
  refine ⟨fun c => ?_, by decide, by decide, by decide⟩
  cases h : c.ralph_wiggum_feedback with
  | none => simp [OrchestrationContext.is_ralph_wiggum_accepted, h]
  | some fb => simp [OrchestrationContext.is_ralph_wiggum_accepted, h]

/-- C7: retry preparation at `review_attempt = max_attempts` reports false
and returns the context unchanged; below the maximum it reports true,
increments the attempt counter by one, clears the feedback, and leaves the
history, notes, snapshots, previous outputs and the maximum unchanged. -/
theorem prepare_ralph_wiggum_retry_spec (c : OrchestrationContext) :
    (c.ralph_wiggum_iteration.review_attempt =
        c.ralph_wiggum_iteration.max_attempts →
      c.prepare_ralph_wiggum_retry = (false, c)) ∧
    (c.ralph_wiggum_iteration.review_attempt <
        c.ralph_wiggum_iteration.max_attempts →
      c.prepare_ralph_wiggum_retry.1 = true ∧
      c.prepare_ralph_wiggum_retry.2.ralph_wiggum_iteration.review_attempt =
        c.ralph_wiggum_iteration.review_attempt + 1 ∧
      c.prepare_ralph_wiggum_retry.2.ralph_wiggum_feedback = none ∧
      c.prepare_ralph_wiggum_retry.2.ralph_wiggum_iteration.iteration_history =
        c.ralph_wiggum_iteration.iteration_history ∧
      c.prepare_ralph_wiggum_retry.2.ralph_wiggum_iteration.review_notes =
        c.ralph_wiggum_iteration.review_notes ∧
      c.prepare_ralph_wiggum_retry.2.ralph_wiggum_iteration.file_snapshots =
        c.ralph_wiggum_iteration.file_snapshots ∧
      c.prepare_ralph_wiggum_retry.2.ralph_wiggum_iteration.previous_outputs =
        c.ralph_wiggum_iteration.previous_outputs ∧
      c.prepare_ralph_wiggum_retry.2.ralph_wiggum_iteration.max_attempts =
        c.ralph_wiggum_iteration.max_attempts) := by
  constructor
  · intro h
    simp [OrchestrationContext.prepare_ralph_wiggum_retry,
      OrchestrationContext.can_ralph_wiggum_retry, h]
  · intro h
    have hnot : ¬ (c.ralph_wiggum_iteration.max_attempts ≤
        c.ralph_wiggum_iteration.review_attempt) := Nat.not_le.mpr h
    simp [OrchestrationContext.prepare_ralph_wiggum_retry,
      OrchestrationContext.can_ralph_wiggum_retry,
      IterationMetadata.increment_attempt, h, hnot]

/-- C7 witness: on the default context (attempt 1 of 3) retry preparation
reports true and clears the feedback. -/
theorem prepare_ralph_wiggum_retry_spec_witness :
    baseCtx.prepare_ralph_wiggum_retry.1 = true ∧
    baseCtx.prepare_ralph_wiggum_retry.2.ralph_wiggum_feedback = none ∧
    baseCtx.prepare_ralph_wiggum_retry.2.ralph_wiggum_iteration.review_attempt
      = 2 :=
  have h := (prepare_ralph_wiggum_retry_spec baseCtx).2 (by decide)
  ⟨h.1, h.2.2.1, h.2.1⟩

/-- C10: with no expected completion promise configured (`None` or the empty
string, both falsy in the source's guard), the completion check returns
false on every output. -/
theorem check_promise_completion_unset_spec (c : OrchestrationContext)
    (output : String)
    (h : c.ralph_wiggum_completion_promise = none ∨
      c.ralph_wiggum_completion_promise = some ("")) :
    c.check_promise_completion output = false := by
  cases h with
  | inl h => simp [OrchestrationContext.check_promise_completion, h]
  | inr h => simp [OrchestrationContext.check_promise_completion, h]

/-- C10 witness: the default context has no promise configured, so even an
output with a well-formed marker region is not complete. -/
theorem check_promise_completion_unset_spec_witness :
    baseCtx.check_promise_completion ("<promise>DONE</promise>") = false :=
  check_promise_completion_unset_spec baseCtx _ (Or.inl rfl)

/-! ### Claim theorems: fenced-code extraction -/

/-- C9: when an opening fence matches (its line ending at `s`) but no `\n`
plus triple-backtick marker occurs, or only at or before `s`, the extractor
returns everything after the opening fence line, stripped. -/
theorem extract_code_content_unclosed_fence_spec (text : String) (s : Nat)
    (h1 : fenceSearchAux text.data 0 = some s)
    (h2 : rfindSub ("\n```".data) text.data = none ∨
      ∃ e, rfindSub ("\n```".data) text.data = some e ∧ e ≤ s) :
    extractCodeContent text = String.mk (pyStrip (text.data.drop s)) := by
  rcases h2 with h2 | ⟨e, he, hle⟩
  · simp only [extractCodeContent, h1, h2]
  · simp [extractCodeContent, h1, he, Nat.not_lt.mpr hle]

/-- C9 witness: an opening `python` fence with no closing fence at all. -/
theorem extract_code_content_unclosed_fence_spec_witness :
    extractCodeContent ("```python\nprint(1)") =
      String.mk (pyStrip ((("```python\nprint(1)" : String)).data.drop 10)) :=
  extract_code_content_unclosed_fence_spec _ 10 rfl (Or.inl rfl)

/-! ### Claim theorems: code-review output parsing -/

/-- C4 counterexample: an output with no brace-delimited span at all leaves
the review result unset (`none` stays `none`) instead of storing the
synthesized empty result the claim demands. -/
theorem code_review_parse_no_brace_counterexample :
    braceSpan (("review failed, no output" : String).data) = none ∧
    runCodexCodeReviewParse none ("review failed, no output") ("t1") 2 =
      Except.ok none ∧
    (Except.ok none : Except String (Option CodeReviewResult)) ≠
      Except.ok (some (emptyReviewResult ("t1") 2)) := by
  refine ⟨rfl, rfl, ?_⟩
  simp

/-- C4 (amended): when the output has no brace-delimited span the stage
leaves the review result unchanged; when it has one whose JSON decode fails,
the stage stores the synthesized empty result with `requires_fixes = false`
and no items. -/
theorem code_review_parse_failure_spec (prev : Option CodeReviewResult)
    (output : String) (now : String) (fileCount : Int) :
    (braceSpan output.data = none →
      runCodexCodeReviewParse prev output now fileCount = Except.ok prev) ∧
    (∀ span, braceSpan output.data = some span → pyJsonLoads span = none →
      runCodexCodeReviewParse prev output now fileCount =
        Except.ok (some (emptyReviewResult now fileCount))) := by
  constructor
  · intro h
    simp only [runCodexCodeReviewParse, h]
  · intro span h1 h2
    simp only [runCodexCodeReviewParse, h1, h2]

/-- C4 witness: a brace span that is not valid JSON yields the synthesized
empty result. -/
theorem code_review_parse_failure_spec_witness :
    runCodexCodeReviewParse none ("oops \x7bnot json\x7d end") ("t0") 3 =
      Except.ok (some (emptyReviewResult ("t0") 3)) :=
  (code_review_parse_failure_spec none ("oops \x7bnot json\x7d end")
    ("t0") 3).2 _ rfl rfl

/-! ### Claim theorems: stage executor -/

/-- Executor collaborators for the empty-response scenario: review disabled
diagnostics (`DEBUG` off), syntax always fine, diffs irrelevant, and an agent
that answers the empty string on every attempt. -/
def c5Env : ExecutorEnv :=
  { debug := false, pySyntaxOk := fun _ => true, diffFn := fun _ _ _ => "",
    responses := fun _ => "" }

/-- The same collaborators with `DEBUG` on. -/
def c5EnvDebug : ExecutorEnv := { c5Env with debug := true }

/-- A `create_file` task. -/
def c5Task : PlanTask :=
  { step_id := 1, file_path := "notes.txt", action_type := .create_file,
    instruction := "write the notes" }

/-- C5: with `DEBUG` off, an agent response whose extracted content is empty
is **not** aborted: the executor writes an empty file and appends a success
record, contradicting the specified empty-content abort — which the source
only performs when `DEBUG` is on (second half), because the whole branch,
not just its diagnostic print, is gated on the flag. -/
theorem run_claude_executor_empty_content_bug :
    extractCodeContent ("") = "" ∧
    (runClaudeExecutor c5Env c5Task 3 baseCtx []).1.execution_logs =
      [{ step_id := 1, success := true,
         message := some (writeDoneMsg ("notes.txt")) }] ∧
    (runClaudeExecutor c5Env c5Task 3 baseCtx []).2 = [("notes.txt", "")] ∧
    (runClaudeExecutor c5EnvDebug c5Task 3 baseCtx []).1.execution_logs =
      [failLog 1 ("Claude output empty after parsing; skipped write.")] ∧
    (runClaudeExecutor c5EnvDebug c5Task 3 baseCtx []).2 = [] :=
  ⟨rfl, by decide, by decide, by decide, by decide⟩

/-! ### Claim theorems: command runner -/

/-- Each iteration of the attempt loop on an always-failing command appends
one log entry and keeps the final status `"failed"`. -/
lemma runAttemptLoop_all_failures (command : String) (cwd : Option String)
    (exec : Nat → ExecOutcome)
    (hfail : ∀ n, (exec n).isFailure = true) :
    ∀ (r attempt : Nat) (st : RunLoopState), st.final_status = "failed" →
      (runAttemptLoop command cwd exec r attempt st).logs.length =
        st.logs.length + r ∧
      (runAttemptLoop command cwd exec r attempt st).final_status =
        "failed" := by
  intro r
  induction r with
  | zero => intro attempt st hst; simp [runAttemptLoop, hst]
  | succ n ih =>
    intro attempt st hst
    have hf := hfail attempt
    cases hx : exec attempt with
    | completed rc out err =>
      have hrc : ¬ rc = 0 := by
        rw [hx] at hf
        simpa [ExecOutcome.isFailure] using hf
      simp only [runAttemptLoop, hx]
      rw [if_neg hrc]
      have ihh := ih (attempt + 1)
        { st with
            logs := st.logs ++
              [{ command := command, cwd := cwd, exit_code := rc,
                 stdout := out, stderr := err, attempt := attempt + 1 }]
            last_stderr := err
            final_exit_code := some rc
            final_output := s!"Command failed with exit code {rc}: {err}" }
        hst
      simp only [List.length_append, List.length_cons, List.length_nil] at ihh
      exact ⟨by rw [ihh.1]; omega, ihh.2⟩
    | raised msg =>
      simp only [runAttemptLoop, hx]
      have ihh := ih (attempt + 1)
        { st with
            logs := st.logs ++
              [{ command := command, cwd := cwd, exit_code := -1,
                 stdout := "", stderr := msg, attempt := attempt + 1 }]
            last_stderr := msg
            final_exit_code := some (-1)
            final_output := s!"Command execution error: {msg}" }
        hst
      simp only [List.length_append, List.length_cons, List.length_nil] at ihh
      exact ⟨by rw [ihh.1]; omega, ihh.2⟩

/-- C6: with confirmation granted and a command that fails on every attempt
(nonzero exit or exception), a retry budget of `R` yields exactly `R + 1`
attempt log records, and the persisted summary reports final status
`"failed"` with `total_attempts = R + 1`. -/
theorem command_executor_all_failures_spec (e : CommandExecutor)
    (command : String) (cwd : Option String) (exec : Nat → ExecOutcome)
    (hfail : ∀ n, (exec n).isFailure = true) :
    (e.run command cwd true exec).logs.length = e.retries + 1 ∧
    (e.run command cwd true exec).summary.final_status = "failed" ∧
    (e.run command cwd true exec).summary.total_attempts = e.retries + 1 := by
  have h := runAttemptLoop_all_failures command cwd exec hfail
    (1 + e.retries) 0
    { logs := [], final_status := "failed", final_exit_code := none,
      final_output := "", last_stderr := "" } rfl
  simp only [List.length_nil, Nat.zero_add] at h
  simp only [CommandExecutor.run]
  rw [if_neg (by simp)]
  exact ⟨by simp [h.1]; omega, by simp [h.2], by simp [h.1]; omega⟩

/-- C6 witness: a command raising on each of its three attempts
(`retries = 2`) produces three records and a failed summary. -/
theorem command_executor_all_failures_spec_witness :
    (({ auto_approve := false, retries := 2 } : CommandExecutor).run
        ("false") none true (fun _ => ExecOutcome.raised ("boom"))).logs.length
      = 2 + 1 ∧
    (({ auto_approve := false, retries := 2 } : CommandExecutor).run
        ("false") none true
        (fun _ => ExecOutcome.raised ("boom"))).summary.final_status
      = "failed" ∧
    (({ auto_approve := false, retries := 2 } : CommandExecutor).run
        ("false") none true
        (fun _ => ExecOutcome.raised ("boom"))).summary.total_attempts
      = 2 + 1 :=
  command_executor_all_failures_spec _ _ _ _ (fun _ => rfl)

/-! ### Claim theorems: fix selection and severity sort -/

/-- Members of a severity filter have that severity. -/
lemma mem_severityFilter {s : ReviewSeverity} {items : List CodeReviewItem}
    {y : CodeReviewItem} (h : y ∈ severityFilter s items) : y.severity = s := by
  have := List.mem_filter.mp h
  simpa using this.2

/-- Ordered insertion passes over a block of strictly smaller keys. -/
lemma sevLe_orderedInsert_append (x : CodeReviewItem)
    (A B : List CodeReviewItem) (h : ∀ y ∈ A, ¬ sevLe x y) :
    List.orderedInsert sevLe x (A ++ B) =
      A ++ List.orderedInsert sevLe x B := by
  induction A with
  | nil => rfl
  | cons a A ih =>
    simp only [List.cons_append, List.orderedInsert]
    rw [if_neg (h a (List.mem_cons_self a A))]
    simp only [List.append_eq]
    rw [ih (fun y hy => h y (List.mem_cons_of_mem a hy))]

/-- Ordered insertion stops in front of a block of no-smaller keys (this is
where stability comes from: the inserted element precedes equal keys). -/
lemma sevLe_orderedInsert_cons (x : CodeReviewItem)
    (B : List CodeReviewItem) (h : ∀ y ∈ B, sevLe x y) :
    List.orderedInsert sevLe x B = x :: B := by
  cases B with
  | nil => rfl
  | cons b B =>
    simp only [List.orderedInsert]
    rw [if_pos (h b (List.mem_cons_self b B))]

/-- Ordered insertion between a strictly-smaller block and a no-smaller
block lands exactly at the junction. -/
lemma orderedInsert_into_blocks (x : CodeReviewItem)
    (A B : List CodeReviewItem)
    (hA : ∀ y ∈ A, severityIndex y.severity < severityIndex x.severity)
    (hB : ∀ y ∈ B, severityIndex x.severity ≤ severityIndex y.severity) :
    List.orderedInsert sevLe x (A ++ B) = A ++ x :: B := by
  rw [sevLe_orderedInsert_append x A B
      (fun y hy => Nat.not_le.mpr (hA y hy)),
    sevLe_orderedInsert_cons x B hB]

/-- The stable severity sort is exactly the concatenation of the per-severity
blocks in the fixed order critical, high, medium, low, info, each block in
original emission order (total characterization of the stable sort). -/
lemma sortedBySeverity_eq_filters (items : List CodeReviewItem) :
    sortedBySeverity items =
      severityFilter .critical items ++ (severityFilter .high items ++
        (severityFilter .medium items ++ (severityFilter .low items ++
          severityFilter .info items))) := by
  induction items with
  | nil => rfl
  | cons x l ih =>
    simp only [sortedBySeverity, List.insertionSort] at *
    rw [ih]
    cases hsev : x.severity with
    | critical =>
      rw [sevLe_orderedInsert_cons x _ (fun y _ => by
        unfold sevLe
        rw [hsev]
        have h0 : severityIndex .critical = 0 := by decide
        rw [h0]
        exact Nat.zero_le _)]
      simp [severityFilter, List.filter_cons, hsev]
    | high =>
      have h := orderedInsert_into_blocks x (severityFilter .critical l)
        (severityFilter .high l ++ (severityFilter .medium l ++
          (severityFilter .low l ++ severityFilter .info l)))
        (fun y hy => by rw [mem_severityFilter hy, hsev]; decide)
        (fun y hy => by
          rw [hsev]
          rcases List.mem_append.mp hy with h | h
          · rw [mem_severityFilter h]
          · rcases List.mem_append.mp h with h | h
            · rw [mem_severityFilter h]; decide
            · rcases List.mem_append.mp h with h | h
              · rw [mem_severityFilter h]; decide
              · rw [mem_severityFilter h]; decide)
      simp only [List.append_assoc] at h
      rw [h]
      simp [severityFilter, List.filter_cons, hsev]
    | medium =>
      have h := orderedInsert_into_blocks x
        (severityFilter .critical l ++ severityFilter .high l)
        (severityFilter .medium l ++
          (severityFilter .low l ++ severityFilter .info l))
        (fun y hy => by
          rw [hsev]
          rcases List.mem_append.mp hy with h | h
          · rw [mem_severityFilter h]; decide
          · rw [mem_severityFilter h]; decide)
        (fun y hy => by
          rw [hsev]
          rcases List.mem_append.mp hy with h | h
          · rw [mem_severityFilter h]
          · rcases List.mem_append.mp h with h | h
            · rw [mem_severityFilter h]; decide
            · rw [mem_severityFilter h]; decide)
      simp only [List.append_assoc] at h
      rw [h]
      simp [severityFilter, List.filter_cons, hsev]
    | low =>
      have h := orderedInsert_into_blocks x
        (severityFilter .critical l ++ (severityFilter .high l ++
          severityFilter .medium l))
        (severityFilter .low l ++ severityFilter .info l)
        (fun y hy => by
          rw [hsev]
          rcases List.mem_append.mp hy with h | h
          · rw [mem_severityFilter h]; decide
          · rcases List.mem_append.mp h with h | h
            · rw [mem_severityFilter h]; decide
            · rw [mem_severityFilter h]; decide)
        (fun y hy => by
          rw [hsev]
          rcases List.mem_append.mp hy with h | h
          · rw [mem_severityFilter h]
          · rw [mem_severityFilter h]; decide)
      simp only [List.append_assoc] at h
      rw [h]
      simp [severityFilter, List.filter_cons, hsev]
    | info =>
      have h := orderedInsert_into_blocks x
        (severityFilter .critical l ++ (severityFilter .high l ++
          (severityFilter .medium l ++ severityFilter .low l)))
        (severityFilter .info l)
        (fun y hy => by
          rw [hsev]
          rcases List.mem_append.mp hy with h | h
          · rw [mem_severityFilter h]; decide
          · rcases List.mem_append.mp h with h | h
            · rw [mem_severityFilter h]; decide
            · rcases List.mem_append.mp h with h | h
              · rw [mem_severityFilter h]; decide
              · rw [mem_severityFilter h]; decide)
        (fun y hy => by rw [mem_severityFilter hy, hsev])
      simp only [List.append_assoc] at h
      rw [h]
      simp [severityFilter, List.filter_cons, hsev]

/-- A low-severity review item. -/
def c8Low : CodeReviewItem :=
  { item_id := 1, file_path := "a.py", review_type := .style,
    severity := .low, description := "d1", suggestion := "s1" }

/-- A critical-severity review item. -/
def c8Critical : CodeReviewItem :=
  { item_id := 2, file_path := "b.py", review_type := .bug,
    severity := .critical, description := "d2", suggestion := "s2" }

/-- A high-severity review item. -/
def c8High : CodeReviewItem :=
  { item_id := 3, file_path := "c.py", review_type := .security,
    severity := .high, description := "d3", suggestion := "s3" }

/-- C8: dispatch sorts selected findings stably by severity in the fixed
order critical, high, medium, low, info (the sorted list is exactly the
severity blocks concatenated in that order, each in emission order, and it
is sorted for the severity-index relation); and the `[low, critical, high]`
review items passed through the critical-and-high-only selection yield
exactly `[critical, high]` in that order, which the sort preserves. -/
theorem fix_dispatch_severity_order_spec :
    (∀ items : List CodeReviewItem,
      sortedBySeverity items =
        severityFilter .critical items ++ (severityFilter .high items ++
          (severityFilter .medium items ++ (severityFilter .low items ++
            severityFilter .info items)))) ∧
    (∀ items : List CodeReviewItem,
      List.Sorted sevLe (sortedBySeverity items)) ∧
    promptFixSelection ("c") [c8Low, c8Critical, c8High] =
      [c8Critical, c8High] ∧
    sortedBySeverity (promptFixSelection ("c") [c8Low, c8Critical, c8High]) =
      [c8Critical, c8High] :=
  ⟨sortedBySeverity_eq_filters,
   fun items => List.sorted_insertionSort sevLe items,
   by decide, by decide⟩

/-! ### Claim theorems: plan-array extraction -/

/-- A decode of the empty input never succeeds, so positions at or beyond
the end of the text never host a candidate. -/
lemma parseJsonValue_nil (fuel : Nat) : parseJsonValue fuel [] = none := by
  cases fuel <;> rfl

/-- The `str.find` bounds: a found bracket lies inside the text, at or after the
requested start. -/
lemma findBracketFrom_bounds {cs : List Char} {idx j : Nat}
    (h : findBracketFrom cs idx = some j) : j < cs.length ∧ idx ≤ j := by
  unfold findBracketFrom at h
  cases hf : (cs.drop idx).findIdx? (fun c => c = '[') with
  | none => rw [hf] at h; simp at h
  | some k =>
    rw [hf] at h
    simp at h
    obtain ⟨hk1, hk2⟩ := List.findIdx?_eq_some_iff_findIdx_eq.mp hf
    have hlen : (cs.drop idx).length = cs.length - idx :=
      List.length_drop idx cs
    omega

/-- Soundness of the scan: every collected candidate qualifies at its
recorded position, which lies inside the text at or after the scan start. -/
lemma collectCandidatesPos_sound (cs : List Char) :
    ∀ (fuel idx : Nat) (p : Nat × List Json),
      p ∈ collectCandidatesPos cs fuel idx →
      qualifiesAt cs p.1 = true ∧ p.1 < cs.length ∧ idx ≤ p.1 := by
  intro fuel
  induction fuel with
  | zero => intro idx p hp; simp [collectCandidatesPos] at hp
  | succ n ih =>
    intro idx p hp
    rw [collectCandidatesPos] at hp
    split at hp
    · simp at hp
    · next j hf =>
      have hj := findBracketFrom_bounds hf
      split at hp
      · have h := ih _ p hp
        exact ⟨h.1, h.2.1, by omega⟩
      · next xs rest hd =>
        by_cases hq : xs.all Json.isObj
        · rw [if_pos hq] at hp
          rcases List.mem_cons.mp hp with hp | hp
          · subst hp
            refine ⟨?_, hj.1, hj.2⟩
            simp only [qualifiesAt, hd, hq]
          · have h := ih _ p hp
            exact ⟨h.1, h.2.1, by omega⟩
        · rw [if_neg hq] at hp
          have h := ih _ p hp
          exact ⟨h.1, h.2.1, by omega⟩
      · have h := ih _ p hp
        exact ⟨h.1, h.2.1, by omega⟩

/-- The instrumented scan collects the same values as the source's scan. -/
lemma collectCandidatesPos_map_snd (cs : List Char) :
    ∀ fuel idx,
      (collectCandidatesPos cs fuel idx).map Prod.snd =
        collectCandidatesAux cs fuel idx := by
  intro fuel
  induction fuel with
  | zero => intro idx; rfl
  | succ n ih =>
    intro idx
    rw [collectCandidatesPos, collectCandidatesAux]
    split
    · rfl
    · next j hf =>
      split
      · exact ih _
      · next xs rest hd =>
        by_cases hq : xs.all Json.isObj
        · rw [if_pos hq, if_pos hq, List.map_cons, ih]
        · rw [if_neg hq, if_neg hq, ih]
      · exact ih _

/-- The scan's candidate positions are collected in document order. -/
lemma collectCandidatesPos_pairwise (cs : List Char) :
    ∀ fuel idx,
      (collectCandidatesPos cs fuel idx).Pairwise
        (fun a b => a.1 ≤ b.1) := by
  intro fuel
  induction fuel with
  | zero => intro idx; simp [collectCandidatesPos]
  | succ n ih =>
    intro idx
    rw [collectCandidatesPos]
    split
    · simp
    · next j hf =>
      split
      · exact ih _
      · next xs rest hd =>
        by_cases hq : xs.all Json.isObj
        · rw [if_pos hq]
          refine List.Pairwise.cons ?_ (ih _)
          intro b hb
          have h := collectCandidatesPos_sound cs n _ b hb
          simp only
          omega
        · rw [if_neg hq]; exact ih _
      · exact ih _

/-- The text of the spec's own multi-candidate example. -/
def c2ScanText : String := "try: [\x7b\"a\":1\x7d] final: [\x7b\"b\":2\x7d]"

/-- A text whose last decodable array-of-objects (`[{"b": 1}]`) is nested
inside an earlier candidate's element. -/
def c2NestedText : String := "x [\x7b\"a\": [\x7b\"b\": 1\x7d]\x7d]"

/-- A text that is itself a valid JSON object. -/
def c3ObjText : String := "\x7b\"k\": 1\x7d"

/-- C2 counterexample: `c2NestedText` is not valid JSON as a whole and hosts
two decodable JSON arrays-of-objects, the last (position 9) being the nested
`[{"b": 1}]`; yet the extractor returns the outer array found first, not that
last candidate in document order — the scan jumps past a decoded span and
never examines arrays nested inside it. -/
theorem extract_json_list_not_last_document_candidate :
    (pyJsonLoads c2NestedText.data).isNone = true ∧
    qualifyingPositions c2NestedText.data = [2, 9] ∧
    rawDecode (c2NestedText.data.drop 9) =
      some (Json.arr [Json.obj [("b", Json.num ("1"))]], ("\x7d]".data)) ∧
    extractJsonList c2NestedText =
      Json.arr [Json.obj [("a", Json.arr [Json.obj [("b", Json.num ("1"))]])]] ∧
    extractJsonList c2NestedText ≠ Json.arr [Json.obj [("b", Json.num ("1"))]] := by
  refine ⟨rfl, rfl, rfl, rfl, fun h => ?_⟩
  have hk := congrArg
    (fun j => match j with
      | Json.arr (Json.obj ((k, _) :: _) :: _) => k
      | _ => "") h
  exact absurd hk (by decide)

/-- C2 (amended): when the whole text is not valid JSON and the
left-to-right scan (which resumes after each successfully decoded span,
skipping one character after a failed decode) collects at least one
candidate, the extractor returns the scan's last candidate; every collected
candidate is a decodable JSON array of objects at its recorded position
inside the text, and candidates are collected in document order. -/
theorem extract_json_list_returns_last_scan_candidate (text : String)
    (h1 : pyJsonLoads text.data = none)
    (h2 : (collectCandidatesPos text.data (scanFuel text.data) 0).isEmpty
      = false) :
    ∃ p xs,
      (collectCandidatesPos text.data (scanFuel text.data) 0).getLast? =
        some (p, xs) ∧
      extractJsonList text = Json.arr xs ∧
      qualifiesAt text.data p = true ∧
      p < text.data.length ∧
      (∀ q ∈ collectCandidatesPos text.data (scanFuel text.data) 0,
        qualifiesAt text.data q.1 = true) ∧
      (collectCandidatesPos text.data (scanFuel text.data) 0).Pairwise
        (fun a b => a.1 ≤ b.1) := by
  have hne : collectCandidatesPos text.data (scanFuel text.data) 0 ≠ [] := by
    intro h
    rw [h] at h2
    simp [List.isEmpty] at h2
  obtain ⟨q, hlast⟩ :
      ∃ q, (collectCandidatesPos text.data (scanFuel text.data) 0).getLast? =
        some q := by
    cases hq : (collectCandidatesPos text.data (scanFuel text.data) 0).getLast?
      with
    | none => exact absurd (by simpa using hq) hne
    | some q => exact ⟨q, rfl⟩
  obtain ⟨p, xs⟩ := q
  have hmem := List.mem_of_mem_getLast? hlast
  have hsound :=
    collectCandidatesPos_sound text.data (scanFuel text.data) 0 _ hmem
  refine ⟨p, xs, hlast, ?_, hsound.1, hsound.2.1, ?_, ?_⟩
  · have hauxlast :
        (collectCandidatesAux text.data (scanFuel text.data) 0).getLast? =
          some xs := by
      rw [← collectCandidatesPos_map_snd, List.getLast?_map, hlast]
      rfl
    simp [extractJsonList, h1, hauxlast]
  · intro q hq
    exact (collectCandidatesPos_sound text.data (scanFuel text.data) 0 q hq).1
  · exact collectCandidatesPos_pairwise text.data (scanFuel text.data) 0

/-- C2 witness: the spec's example text (two candidates, the second wins). -/
theorem extract_json_list_returns_last_scan_candidate_witness :
    ∃ p xs,
      (collectCandidatesPos c2ScanText.data (scanFuel c2ScanText.data)
        0).getLast? = some (p, xs) ∧
      extractJsonList c2ScanText = Json.arr xs ∧
      qualifiesAt c2ScanText.data p = true ∧
      p < c2ScanText.data.length ∧
      (∀ q ∈ collectCandidatesPos c2ScanText.data (scanFuel c2ScanText.data) 0,
        qualifiesAt c2ScanText.data q.1 = true) ∧
      (collectCandidatesPos c2ScanText.data (scanFuel c2ScanText.data)
        0).Pairwise (fun a b => a.1 ≤ b.1) :=
  extract_json_list_returns_last_scan_candidate c2ScanText rfl rfl

/-- C3 counterexample: `{"k": 1}` contains no decodable JSON array of
objects at any position, yet the extractor returns the decoded object (the
whole-text `json.loads` result), not an empty list. -/
theorem extract_json_list_whole_text_object :
    qualifyingPositions c3ObjText.data = [] ∧
    extractJsonList c3ObjText = Json.obj [("k", Json.num ("1"))] ∧
    extractJsonList c3ObjText ≠ Json.arr [] := by
  refine ⟨rfl, rfl, fun h => ?_⟩
  rw [show extractJsonList c3ObjText = Json.obj [("k", Json.num ("1"))] from rfl]
    at h
  exact Json.noConfusion h

/-- C3 (amended): when the whole text is not valid JSON and no position of
the text hosts a decodable JSON array of objects, the extractor returns the
empty list (and, being a total function of the text, raises nothing); when
the whole text is valid JSON the extractor instead returns that decoded
value, whatever its shape. -/
theorem extract_json_list_no_candidates_empty (text : String)
    (h1 : pyJsonLoads text.data = none)
    (h2 : ∀ i < text.data.length, qualifiesAt text.data i = false) :
    extractJsonList text = Json.arr [] := by
  have hpos : collectCandidatesPos text.data (scanFuel text.data) 0 = [] := by
    cases hc : collectCandidatesPos text.data (scanFuel text.data) 0 with
    | nil => rfl
    | cons p rest =>
      exfalso
      have hm : p ∈ collectCandidatesPos text.data (scanFuel text.data) 0 := by
        rw [hc]
        exact List.mem_cons_self p rest
      have hs :=
        collectCandidatesPos_sound text.data (scanFuel text.data) 0 p hm
      have hfalse := h2 p.1 hs.2.1
      rw [hs.1] at hfalse
      exact Bool.noConfusion hfalse
  have haux : collectCandidatesAux text.data (scanFuel text.data) 0 = [] := by
    rw [← collectCandidatesPos_map_snd, hpos]
    rfl
  simp [extractJsonList, h1, haux]

/-- C3 witness: prose with one malformed bracketed span and no valid
candidate anywhere yields the empty list. -/
theorem extract_json_list_no_candidates_empty_witness :
    extractJsonList ("list [1, 2] here") = Json.arr [] :=
  extract_json_list_no_candidates_empty ("list [1, 2] here") rfl (by decide)
